import Mathlib

/-!
Verification of the distributed background-job coordination subsystem:
the Redis-backed job runner (`app/background/runner.py`), the coordination
client (`app/infrastructure/redis.py`) and the auth rate limiter
(`app/application/auth_rate_limit.py`).

The shared store is modelled as an association list of keys to entries
carrying an absolute expiry deadline; logical time is a field of the store
and only moves via `Store.advance` (the store commands themselves take no
time).  Each Redis command used by the code is translated to a pure
function on this store; fallible paths (network errors, Lua/`int()` parse
errors) are surfaced as `Option`/`Except` or driven by explicit
availability flags, matching where the Python code can raise
`RedisError`/`ValueError`.
-/

namespace Kitsu

/-- A stored Redis value.  Redis keeps plain strings and integer-encoded
strings (the result of INCR/DECR) as distinct internal encodings; GET
prints an integer-encoded value in decimal, and the numeric reads
(`tonumber` in Lua, `int()` in Python) recover exactly that integer. -/
inductive RVal
  | str (v : String)
  | int (n : Int)
deriving Repr, DecidableEq

/-- What GET returns for a value. -/
def RVal.asString : RVal → String
  | RVal.str v => v
  | RVal.int n => toString n

/-- Numeric read of a value: an integer-encoded value is its integer; a
plain string must parse as a decimal integer. -/
def RVal.asInt? : RVal → Option Int
  | RVal.str v => v.toInt?
  | RVal.int n => some n

/-- A stored value with its absolute expiry deadline (`none` = no TTL). -/
structure Entry where
  value : RVal
  expireAt : Option Nat
deriving Repr, DecidableEq

/-- The shared key-value store (Redis), with a logical clock. -/
structure Store where
  now : Nat
  entries : List (String × Entry)
deriving Repr, DecidableEq

/-- Lookup in an association list of entries. -/
def findEntry : List (String × Entry) → String → Option Entry
  | [], _ => none
  | p :: rest, k => if p.1 = k then some p.2 else findEntry rest k

/-- Remove every binding of a key from an association list. -/
def removeKey : List (String × Entry) → String → List (String × Entry)
  | [], _ => []
  | p :: rest, k => if p.1 = k then removeKey rest k else p :: removeKey rest k

/-- An entry is live when it has no deadline or the deadline is in the future. -/
def Entry.live (e : Entry) (now : Nat) : Bool :=
  match e.expireAt with
  | none => true
  | some t => decide (now < t)

/-- Raw lookup (ignores expiry). -/
def Store.lookup (s : Store) (k : String) : Option Entry :=
  findEntry s.entries k

/-- GET: the printed value of a live entry, `none` for absent or expired
keys. -/
def Store.get (s : Store) (k : String) : Option String :=
  match s.lookup k with
  | none => none
  | some e => if e.live s.now then some e.value.asString else none

/-- The live entry at a key, if any (absent and expired agree with GET). -/
def Store.liveEntry (s : Store) (k : String) : Option Entry :=
  match s.lookup k with
  | none => none
  | some e => if e.live s.now then some e else none

/-- Replace the binding of a key. -/
def Store.setEntry (s : Store) (k : String) (e : Entry) : Store :=
  ⟨s.now, (k, e) :: removeKey s.entries k⟩

/-- SET with optional EX: overwrite, installing a fresh TTL (or none). -/
def Store.set (s : Store) (k v : String) (ttl : Option Nat) : Store :=
  s.setEntry k ⟨RVal.str v, ttl.map (fun t => s.now + t)⟩

/-- SET NX EX: set only if the key is absent; the Bool reports success. -/
def Store.setnx (s : Store) (k v : String) (ttl : Nat) : Store × Bool :=
  match s.get k with
  | some _ => (s, false)
  | none => (s.set k v (some ttl), true)

/-- INCRBY-style update: absent or expired keys restart at `d` with no TTL,
live numeric values are bumped keeping their TTL, non-numeric values are a
command error (`none`), as Redis INCR/DECR raise on them. -/
def Store.incrBy (s : Store) (k : String) (d : Int) : Option (Store × Int) :=
  match s.lookup k with
  | none => some (s.setEntry k ⟨RVal.int d, none⟩, d)
  | some e =>
    if e.live s.now then
      match e.value.asInt? with
      | none => none
      | some n => some (s.setEntry k ⟨RVal.int (n + d), e.expireAt⟩, n + d)
    else some (s.setEntry k ⟨RVal.int d, none⟩, d)

/-- INCR. -/
def Store.incr (s : Store) (k : String) : Option (Store × Int) :=
  s.incrBy k 1

/-- DECR. -/
def Store.decr (s : Store) (k : String) : Option (Store × Int) :=
  s.incrBy k (-1)

/-- EXPIRE (optionally with NX): set the TTL of a live key; reports whether
a timeout was installed. -/
def Store.expireCmd (s : Store) (k : String) (ttl : Nat) (nx : Bool) : Store × Bool :=
  match s.lookup k with
  | none => (s, false)
  | some e =>
    if e.live s.now then
      if nx && e.expireAt.isSome then (s, false)
      else (s.setEntry k ⟨e.value, some (s.now + ttl)⟩, true)
    else (s, false)

/-- DEL. -/
def Store.del (s : Store) (k : String) : Store :=
  ⟨s.now, removeKey s.entries k⟩

/-- Let `d` seconds of logical time pass (drives TTL expiry). -/
def Store.advance (s : Store) (d : Nat) : Store :=
  ⟨s.now + d, s.entries⟩

/-- The `tonumber(redis.call('GET', key) or 0)` read of the Lua admission
script: absent and expired keys read as 0; a live value goes through the
numeric read, `none` meaning the script aborts with an error. -/
def Store.numAt (s : Store) (k : String) : Option Int :=
  match s.liveEntry k with
  | none => some 0
  | some e => e.value.asInt?

/-!
`app/infrastructure/redis.py` — `RedisClient`: distributed locks and
counters.  Each method is a pure function of the store; network failure is
handled by the callers (the application layer below takes an availability
flag), since these methods install no exception handler of their own.
-/

/-- `RedisClient.try_acquire_lock`: SET NX EX on `lock:<key>`. -/
def try_acquire_lock (s : Store) (key : String) (ttl_seconds : Nat) : Store × Bool :=
  s.setnx ("lock:" ++ key) ("1") ttl_seconds

/-- `RedisClient.release_lock`: DEL of `lock:<key>`. -/
def release_lock (s : Store) (key : String) : Store :=
  s.del ("lock:" ++ key)

/-- `RedisClient.extend_lock`: plain EXPIRE of `lock:<key>` (no NX, no
ownership token); the Bool is Redis's report that a timeout was set. -/
def extend_lock (s : Store) (key : String) (ttl_seconds : Nat) : Store × Bool :=
  s.expireCmd ("lock:" ++ key) ttl_seconds false

/-- `RedisClient.increment_counter`: pipeline of INCR then, when a TTL is
given, EXPIRE NX (TTL installed only when none is present yet). -/
def increment_counter (s : Store) (key : String) (ttl_seconds : Option Nat) :
    Option (Store × Int) :=
  match s.incr key with
  | none => none
  | some (s', n) =>
    match ttl_seconds with
    | none => some (s', n)
    | some t => some ((s'.expireCmd key t true).1, n)

/-- `RedisClient.get_counter`: `int(value) if value else 0` — absent (or
expired) keys and the empty string read as 0; any other stored value goes
through the numeric read, `none` meaning a `ValueError` from `int()`. -/
def get_counter (s : Store) (key : String) : Option Int :=
  match s.liveEntry key with
  | none => some 0
  | some e =>
    match e.value with
    | RVal.str v => if v = "" then some 0 else v.toInt?
    | RVal.int n => some n

/-- `RedisClient.delete_counter`. -/
def delete_counter (s : Store) (key : String) : Store :=
  s.del key

/-- `RedisClient.set_value`: SETEX when `ttl_seconds` is truthy (Python
`if ttl_seconds:` — `None` and `0` both fall to the plain SET branch). -/
def set_value (s : Store) (key v : String) (ttl_seconds : Option Nat) : Store :=
  match ttl_seconds with
  | some t => if t ≠ 0 then s.set key v (some t) else s.set key v none
  | none => s.set key v none

/-- `RedisClient.get_value`. -/
def get_value (s : Store) (key : String) : Option String :=
  s.get key

/-!
`app/application/auth_rate_limit.py` — the Redis rate limiter and the login
rate-limit helpers.  These functions install no handler for store errors:
a store failure (modelled by `up = false`) or an unparseable counter
surfaces as an error value, exactly as `RedisError`/`ValueError` propagate
out of the Python functions.  The SHA-256 hex digest used for key
derivation is an external-library primitive and is passed in as an
abstract function `h`.
-/

/-- Exceptions that can escape the auth rate-limit operations. -/
inductive AuthSignal
  | rateLimitExceeded
  | redisError
  | valueError
deriving Repr, DecidableEq

/-- `RedisRateLimiter` configuration. -/
structure RedisRateLimiter where
  max_attempts : Nat
  window_seconds : Nat
deriving Repr, DecidableEq

/-- `RedisRateLimiter.is_limited`: count of `ratelimit:<key>` is at least
`max_attempts`; store errors propagate. -/
def RedisRateLimiter.is_limited (rl : RedisRateLimiter) (up : Bool) (s : Store)
    (key : String) : Except AuthSignal Bool :=
  if up then
    match get_counter s ("ratelimit:" ++ key) with
    | none => Except.error AuthSignal.valueError
    | some c => Except.ok (decide ((rl.max_attempts : Int) ≤ c))
  else Except.error AuthSignal.redisError

/-- `RedisRateLimiter.record_failure`: increment with the window as TTL
(TTL installed only by the increment that creates the counter). -/
def RedisRateLimiter.record_failure (rl : RedisRateLimiter) (up : Bool) (s : Store)
    (key : String) : Except AuthSignal Store :=
  if up then
    match increment_counter s ("ratelimit:" ++ key) (some rl.window_seconds) with
    | none => Except.error AuthSignal.redisError
    | some (s', _) => Except.ok s'
  else Except.error AuthSignal.redisError

/-- `RedisRateLimiter.reset`: delete the counter. -/
def RedisRateLimiter.reset (rl : RedisRateLimiter) (up : Bool) (s : Store)
    (key : String) : Except AuthSignal Store :=
  if up then Except.ok (delete_counter s ("ratelimit:" ++ key))
  else Except.error AuthSignal.redisError

/-- `AUTH_RATE_LIMIT_MAX_ATTEMPTS`. -/
def AUTH_RATE_LIMIT_MAX_ATTEMPTS : Nat := 5

/-- `AUTH_RATE_LIMIT_WINDOW_SECONDS`. -/
def AUTH_RATE_LIMIT_WINDOW_SECONDS : Nat := 60

/-- The module-level `auth_rate_limiter` instance. -/
def auth_rate_limiter : RedisRateLimiter :=
  ⟨AUTH_RATE_LIMIT_MAX_ATTEMPTS, AUTH_RATE_LIMIT_WINDOW_SECONDS⟩

/-- `_make_key`: scope, IP component (with deterministic fallback when the
client IP is falsy — `None` or empty), and truncated identity hash;
an empty identifier raises `ValueError`.  `h` is the hex-digest hash. -/
def _make_key (h : String → String) (scope identifier : String)
    (client_ip : Option String) : Except AuthSignal String :=
  if identifier = "" then Except.error AuthSignal.valueError
  else
    let identifier_hash := h identifier
    let identifier_component := identifier_hash.take 64
    let ip_component :=
      match client_ip with
      | some ip => if ip = "" then "unknown-ip-" ++ identifier_hash.take 8 else ip
      | none => "unknown-ip-" ++ identifier_hash.take 8
    Except.ok (scope ++ ":" ++ ip_component ++ ":" ++ identifier_component)

/-- Python `str.lower()` as the per-character lowercase map (ASCII case
folding on every character of the string). -/
def pyLower (v : String) : String :=
  ⟨v.data.map Char.toLower⟩

/-- `check_login_rate_limit`: derive the key from the lowercased email and
the client IP, raise the rate-limit signal when limited, else return the
key. -/
def check_login_rate_limit (h : String → String) (up : Bool) (s : Store)
    (email : String) (client_ip : Option String) : Except AuthSignal String :=
  match _make_key h ("login") (pyLower email) client_ip with
  | Except.error e => Except.error e
  | Except.ok key =>
    match auth_rate_limiter.is_limited up s key with
    | Except.error e => Except.error e
    | Except.ok true => Except.error AuthSignal.rateLimitExceeded
    | Except.ok false => Except.ok key

/-- `record_login_failure`. -/
def record_login_failure (up : Bool) (s : Store) (key : String) :
    Except AuthSignal Store :=
  auth_rate_limiter.record_failure up s key

/-- `reset_login_limit`. -/
def reset_login_limit (up : Bool) (s : Store) (key : String) :
    Except AuthSignal Store :=
  auth_rate_limiter.reset up s key

/-!
`app/background/runner.py` — the distributed job runner.

`_run_job` is embedded as a pure function of the store plus a fault/
behavior environment: `storeUp` says whether the Redis server is reachable
for the main body's commands (the client handle itself is cached, so
`_ensure_redis` returns it; each network command raises iff the server is
down), `handlerOk n` says whether the n-th handler invocation returns
normally or raises, and `decrOk n` says whether the n-th DECR attempt of
the cleanup block reaches the server.  The job's `handler` field carries
no data relevant to control flow beyond `handlerOk`, so it is not part of
the embedded `Job`.  Log lines and sleeps are recorded as counts/lists.
-/

/-- `JobStatus`. -/
inductive JobStatus
  | queued
  | running
  | succeeded
  | failed
deriving Repr, DecidableEq

/-- The `str` value of a `JobStatus` member. -/
def JobStatus.value : JobStatus → String
  | JobStatus.queued => "queued"
  | JobStatus.running => "running"
  | JobStatus.succeeded => "succeeded"
  | JobStatus.failed => "failed"

/-- `JobStatus(status_str)`: parse, `none` meaning `ValueError`. -/
def JobStatus.ofString? (v : String) : Option JobStatus :=
  if v = "queued" then some JobStatus.queued
  else if v = "running" then some JobStatus.running
  else if v = "succeeded" then some JobStatus.succeeded
  else if v = "failed" then some JobStatus.failed
  else none

/-- `Job` (the `handler` callable is represented by the environment's
`handlerOk` oracle, not stored in the record). -/
structure Job where
  key : String
  max_attempts : Nat
  backoff_seconds : ℚ
  attempts : Nat
  criticality : String
deriving Repr, DecidableEq

/-- `MAX_RUNNING_JOBS`. -/
def MAX_RUNNING_JOBS : Int := 20

/-- `GLOBAL_JOB_COUNTER_KEY`. -/
def GLOBAL_JOB_COUNTER_KEY : String := "counter:global_jobs"

/-- `JobRunner._make_status_key`. -/
def _make_status_key (job_key : String) : String :=
  "job:status:" ++ job_key

/-- The `CHECK_AND_INCR_SCRIPT` Lua script, which Redis runs atomically:
read the counter (`tonumber(GET or 0)`), return 0 when it is at least the
limit, else INCR and return 1.  A non-numeric stored value makes
`tonumber` return nil and the script abort (`none`), which the caller
sees as a `RedisError`. -/
def check_and_incr (s : Store) (key : String) (max_limit : Int) :
    Option (Store × Nat) :=
  match s.numAt key with
  | none => none
  | some current =>
    if max_limit ≤ current then some (s, 0)
    else
      match s.incr key with
      | none => none
      | some (s', _) => some (s', 1)

/-- Fault/behavior environment for one `_run_job` call. -/
structure RunEnv where
  storeUp : Bool
  handlerOk : Nat → Bool
  decrOk : Nat → Bool

/-- How the retry loop of `_run_job` ended. -/
inductive LoopFinal
  | succeeded
  | failedPerm
  | skipped
deriving Repr, DecidableEq

/-- Observable result of the retry loop. -/
structure LoopOut where
  store : Store
  calls : Nat
  failLogs : Nat
  sleeps : List ℚ
  final : LoopFinal
deriving Repr

/-- The `while job.attempts < job.max_attempts` retry loop: invoke the
handler; on success SET `succeeded` (TTL 24h) and return; on exception
bump `attempts`, log the failure, and either SET `failed` (TTL 24h) when
attempts are exhausted or sleep
`min(backoff_seconds * attempts, backoff_seconds * max_attempts)` and
retry.  `c` counts handler invocations already made (indexes `hOk`). -/
def retryGo (hOk : Nat → Bool) (j : Job) (attempts c : Nat) (s : Store) :
    Nat → LoopOut
  | 0 => ⟨s, 0, 0, [], LoopFinal.skipped⟩
  | fuel + 1 =>
    if attempts < j.max_attempts then
      if hOk c then
        ⟨s.set (_make_status_key j.key) (JobStatus.succeeded.value) (some 86400),
          1, 0, [], LoopFinal.succeeded⟩
      else
        if j.max_attempts ≤ attempts + 1 then
          ⟨s.set (_make_status_key j.key) (JobStatus.failed.value) (some 86400),
            1, 1, [], LoopFinal.failedPerm⟩
        else
          let d := min (j.backoff_seconds * ((attempts + 1 : Nat) : ℚ))
                       (j.backoff_seconds * (j.max_attempts : ℚ))
          let r := retryGo hOk j (attempts + 1) (c + 1) s fuel
          ⟨r.store, r.calls + 1, r.failLogs + 1, d :: r.sleeps, r.final⟩
    else ⟨s, 0, 0, [], LoopFinal.skipped⟩

/-- Entry point of the loop: `j.max_attempts - attempts` bounds the number
of iterations (each iteration raises `attempts` by one and the loop stops
as soon as `attempts < max_attempts` fails), so running `retryGo` on that
much fuel is exactly the `while` loop. -/
def retryLoop (hOk : Nat → Bool) (j : Job) (attempts c : Nat) (s : Store) : LoopOut :=
  retryGo hOk j attempts c s (j.max_attempts - attempts)

/-- Observable result of the cleanup (`finally`) block. -/
structure DecrOut where
  store : Store
  attempts : Nat
  decrCount : Nat
  sleeps : List ℚ
  gaveUp : Bool
deriving Repr

/-- One pass of the decrement-retry `for` loop: `i` is the 0-based attempt
index, `delay` the current backoff, `fuel` the remaining iterations.  An
attempt succeeds when the server is reachable (`decrOk i`) and the DECR
command itself does not error. -/
def decrGo (decrOk : Nat → Bool) (s : Store) (i : Nat) (delay : ℚ) :
    Nat → DecrOut
  | 0 => ⟨s, 0, 0, [], false⟩
  | fuel + 1 =>
    match (if decrOk i then (s.decr GLOBAL_JOB_COUNTER_KEY).map Prod.fst else none) with
    | some s' => ⟨s', 1, 1, [], false⟩
    | none =>
      if fuel = 0 then ⟨s, 1, 0, [], true⟩
      else
        let r := decrGo decrOk s (i + 1) (delay * 2) fuel
        ⟨r.store, r.attempts + 1, r.decrCount, delay :: r.sleeps, r.gaveUp⟩

/-- The `finally` block's decrement with retry: `max_retries = 3`,
`retry_delay = 0.1`, doubling after each failed attempt. -/
def decrRetry (decrOk : Nat → Bool) (s : Store) : DecrOut :=
  decrGo decrOk s 0 (1 / 10) 3

/-- The decision taken by `_run_job`, mirroring its log lines. -/
inductive Outcome
  | droppedLimit
  | rejectedLimit
  | droppedRedis
  | rejectedRedis
  | succeeded
  | failedPermanently
  | loopSkipped
  | redisErrorLogged
deriving Repr, DecidableEq

/-- Observable result of the `try` body of `_run_job`. -/
structure BodyResult where
  store : Store
  incremented : Bool
  handlerCalls : Nat
  failureLogs : Nat
  sleeps : List ℚ
  outcome : Outcome
deriving Repr

/-- The part of `_run_job` after the admission decision: SET `running`
(TTL 1h) — a raised `RedisError` here lands in the outer `except`, with
the handler never invoked — then the retry loop. -/
def afterAdmission (env : RunEnv) (s : Store) (j : Job) (incremented : Bool) :
    BodyResult :=
  if env.storeUp then
    let s1 := s.set (_make_status_key j.key) (JobStatus.running.value) (some 3600)
    let r := retryLoop env.handlerOk j j.attempts 0 s1
    ⟨r.store, incremented, r.calls, r.failLogs, r.sleeps,
      match r.final with
      | LoopFinal.succeeded => Outcome.succeeded
      | LoopFinal.failedPerm => Outcome.failedPermanently
      | LoopFinal.skipped => Outcome.loopSkipped⟩
  else ⟨s, incremented, 0, 0, [], Outcome.redisErrorLogged⟩

/-- The `try` body of `_run_job`: non-critical jobs run the atomic
check-and-increment (a limit-exceeded report SETs `failed` with TTL 24h
and drops/rejects; a `RedisError` from the script — including the
unreachable-server case — drops/rejects without touching the store);
critical jobs skip straight past the admission check. -/
def runBody (env : RunEnv) (s0 : Store) (j : Job) : BodyResult :=
  if j.criticality ≠ "critical" then
    if env.storeUp then
      match check_and_incr s0 GLOBAL_JOB_COUNTER_KEY MAX_RUNNING_JOBS with
      | none =>
        if j.criticality = "best_effort" then ⟨s0, false, 0, 0, [], Outcome.droppedRedis⟩
        else ⟨s0, false, 0, 0, [], Outcome.rejectedRedis⟩
      | some (s1, 0) =>
        let s2 := s1.set (_make_status_key j.key) (JobStatus.failed.value) (some 86400)
        if j.criticality = "best_effort" then ⟨s2, false, 0, 0, [], Outcome.droppedLimit⟩
        else ⟨s2, false, 0, 0, [], Outcome.rejectedLimit⟩
      | some (s1, _ + 1) => afterAdmission env s1 j true
    else
      if j.criticality = "best_effort" then ⟨s0, false, 0, 0, [], Outcome.droppedRedis⟩
      else ⟨s0, false, 0, 0, [], Outcome.rejectedRedis⟩
  else afterAdmission env s0 j false

/-- Full observable result of `_run_job`. -/
structure RunResult where
  store : Store
  incremented : Bool
  handlerCalls : Nat
  failureLogs : Nat
  sleeps : List ℚ
  outcome : Outcome
  decrAttempts : Nat
  decrCount : Nat
  decrSleeps : List ℚ
  decrGaveUp : Bool
deriving Repr

/-- `JobRunner._run_job`: the `try` body followed by the `finally` block,
which runs the decrement-with-retry only when `running_incremented` was
set. -/
def run_job (env : RunEnv) (s0 : Store) (j : Job) : RunResult :=
  let b := runBody env s0 j
  if b.incremented then
    let d := decrRetry env.decrOk b.store
    ⟨d.store, b.incremented, b.handlerCalls, b.failureLogs, b.sleeps, b.outcome,
      d.attempts, d.decrCount, d.sleeps, d.gaveUp⟩
  else ⟨b.store, b.incremented, b.handlerCalls, b.failureLogs, b.sleeps, b.outcome,
      0, 0, [], false⟩

/-- One serialized admission attempt's effect on the store.  The Lua
script runs atomically on Redis, so any concurrent interleaving of
admission attempts is a sequence of these steps; an erroring script
leaves the store unchanged (the script aborts before its INCR). -/
def admit_step (s : Store) : Store :=
  match check_and_incr s GLOBAL_JOB_COUNTER_KEY MAX_RUNNING_JOBS with
  | none => s
  | some (s', _) => s'

/-- The enqueue decision, mirroring the log lines of `JobRunner.enqueue`. -/
inductive EnqOutcome
  | unavailableFlag
  | skippedDuplicateStatus (st : JobStatus)
  | enqueued
  | skippedDuplicateRace
  | redisError
deriving Repr, DecidableEq

/-- Observable result of `JobRunner.enqueue`. -/
structure EnqResult where
  job : Job
  jobs : List (String × Job)
  store : Store
  outcome : EnqOutcome
deriving Repr

/-- `JobRunner.enqueue`: bail out when `_redis_available` is unset; read
the current status and skip `queued`/`running`/`succeeded` duplicates
(an unparseable status raises `ValueError`, caught by the `except`); else
SET NX `queued` with a 1h TTL, recording the job locally on success and
skipping as a race-lost duplicate otherwise. -/
def enqueue (redis_available storeUp : Bool) (jobs : List (String × Job))
    (s : Store) (j : Job) : EnqResult :=
  if redis_available then
    if storeUp then
      let try_claim : EnqResult :=
        match s.setnx (_make_status_key j.key) (JobStatus.queued.value) 3600 with
        | (s', true) =>
          ⟨j, (j.key, j) :: jobs.filter (fun p => p.1 ≠ j.key), s', EnqOutcome.enqueued⟩
        | (s', false) => ⟨j, jobs, s', EnqOutcome.skippedDuplicateRace⟩
      match s.get (_make_status_key j.key) with
      | some v =>
        match JobStatus.ofString? v with
        | none => ⟨j, jobs, s, EnqOutcome.redisError⟩
        | some st =>
          if st = JobStatus.queued ∨ st = JobStatus.running ∨ st = JobStatus.succeeded
          then ⟨j, jobs, s, EnqOutcome.skippedDuplicateStatus st⟩
          else try_claim
      | none => try_claim
    else ⟨j, jobs, s, EnqOutcome.redisError⟩
  else ⟨j, jobs, s, EnqOutcome.unavailableFlag⟩

/-- `JobRunner.status_for`: `None` when the availability flag is unset,
when the store errors, when the key is absent, or when the stored string
is not a valid status (`ValueError` caught). -/
def status_for (redis_available storeUp : Bool) (s : Store) (key : String) :
    Option JobStatus :=
  if redis_available then
    if storeUp then
      match s.get (_make_status_key key) with
      | none => none
      | some v => JobStatus.ofString? v
    else none
  else none

/-!
General lemmas about the store model.
-/

@[simp]
theorem findEntry_removeKey_self (l : List (String × Entry)) (k : String) :
    findEntry (removeKey l k) k = none := by
  induction l with
  | nil => simp [findEntry, removeKey]
  | cons p rest ih =>
    by_cases h : p.1 = k
    · simp [removeKey, h, ih]
    · simp [removeKey, findEntry, h, ih]

theorem findEntry_removeKey_ne (l : List (String × Entry)) (k k' : String)
    (h : k' ≠ k) : findEntry (removeKey l k) k' = findEntry l k' := by
  induction l with
  | nil => simp [removeKey]
  | cons p rest ih =>
    simp only [removeKey, findEntry]
    by_cases hp : p.1 = k
    · rw [if_pos hp]
      have hne : ¬ p.1 = k' := fun hk => h (hk.symm.trans hp)
      rw [if_neg hne]
      exact ih
    · rw [if_neg hp]
      simp only [findEntry]
      rw [ih]

@[simp]
theorem Store.lookup_setEntry_self (s : Store) (k : String) (e : Entry) :
    (s.setEntry k e).lookup k = some e := by
  simp [Store.lookup, Store.setEntry, findEntry]

theorem Store.lookup_setEntry_ne (s : Store) (k k' : String) (e : Entry)
    (h : k' ≠ k) : (s.setEntry k e).lookup k' = s.lookup k' := by
  have : k ≠ k' := fun hk => h hk.symm
  simp [Store.lookup, Store.setEntry, findEntry, this]
  exact findEntry_removeKey_ne s.entries k k' h

@[simp]
theorem Store.now_setEntry (s : Store) (k : String) (e : Entry) :
    (s.setEntry k e).now = s.now := rfl

@[simp]
theorem Store.now_set (s : Store) (k v : String) (ttl : Option Nat) :
    (s.set k v ttl).now = s.now := rfl

theorem Store.get_set_ne (s : Store) (k k' v : String) (ttl : Option Nat)
    (h : k' ≠ k) : (s.set k v ttl).get k' = s.get k' := by
  simp [Store.get, Store.set, Store.lookup_setEntry_ne s k k' _ h]

theorem Store.get_set_self_pos (s : Store) (k v : String) (t : Nat)
    (ht : 0 < t) : (s.set k v (some t)).get k = some v := by
  simp [Store.get, Store.set, Entry.live, RVal.asString]
  omega

theorem Store.get_incrBy_ne (s : Store) (k k' : String) (d : Int) (s' : Store)
    (n : Int) (h : s.incrBy k d = some (s', n)) (hne : k' ≠ k) :
    s'.get k' = s.get k' := by
  unfold Store.incrBy at h
  cases hl : s.lookup k with
  | none =>
    rw [hl] at h
    simp at h
    rw [← h.1]
    simp [Store.get, Store.lookup_setEntry_ne s k k' _ hne]
  | some e =>
    rw [hl] at h
    by_cases hlive : e.live s.now
    · simp [hlive] at h
      cases hv : e.value.asInt? with
      | none => rw [hv] at h; simp at h
      | some m =>
        rw [hv] at h
        simp at h
        rw [← h.1]
        simp [Store.get, Store.lookup_setEntry_ne s k k' _ hne]
    · simp [hlive] at h
      rw [← h.1]
      simp [Store.get, Store.lookup_setEntry_ne s k k' _ hne]

theorem Store.now_incrBy (s : Store) (k : String) (d : Int) (s' : Store)
    (n : Int) (h : s.incrBy k d = some (s', n)) : s'.now = s.now := by
  unfold Store.incrBy at h
  cases hl : s.lookup k with
  | none =>
    rw [hl] at h; simp at h; rw [← h.1]; rfl
  | some e =>
    rw [hl] at h
    by_cases hlive : e.live s.now
    · simp [hlive] at h
      cases hv : e.value.asInt? with
      | none => rw [hv] at h; simp at h
      | some m => rw [hv] at h; simp at h; rw [← h.1]; rfl
    · simp [hlive] at h; rw [← h.1]; rfl

@[simp]
theorem Store.lookup_advance (s : Store) (d : Nat) (k : String) :
    (s.advance d).lookup k = s.lookup k := rfl

@[simp]
theorem Store.now_advance (s : Store) (d : Nat) :
    (s.advance d).now = s.now + d := rfl

theorem String.append_left_inj (p a b : String) (h : p ++ a = p ++ b) : a = b := by
  have hd := congrArg String.data h
  rw [String.data_append, String.data_append] at hd
  exact String.ext (List.append_cancel_left hd)

theorem String.append_right_inj (a b t : String) (h : a ++ t = b ++ t) : a = b := by
  have hd := congrArg String.data h
  rw [String.data_append, String.data_append] at hd
  exact String.ext (List.append_cancel_right hd)

theorem make_status_key_ne_global (k : String) :
    _make_status_key k ≠ GLOBAL_JOB_COUNTER_KEY := by
  intro hco
  have h1 : (_make_status_key k).data.head? = some ('j') := by
    unfold _make_status_key
    rw [String.data_append]
    rfl
  rw [hco] at h1
  exact absurd h1 (by decide)

theorem Store.lookup_incrBy_ne (s : Store) (k k' : String) (d : Int) (s' : Store)
    (n : Int) (h : s.incrBy k d = some (s', n)) (hne : k' ≠ k) :
    s'.lookup k' = s.lookup k' := by
  unfold Store.incrBy at h
  cases hl : s.lookup k with
  | none =>
    rw [hl] at h
    simp at h
    rw [← h.1, Store.lookup_setEntry_ne s k k' _ hne]
  | some e =>
    rw [hl] at h
    by_cases hlive : e.live s.now
    · simp [hlive] at h
      cases hv : e.value.asInt? with
      | none => rw [hv] at h; simp at h
      | some m =>
        rw [hv] at h
        simp at h
        rw [← h.1, Store.lookup_setEntry_ne s k k' _ hne]
    · simp [hlive] at h
      rw [← h.1, Store.lookup_setEntry_ne s k k' _ hne]

theorem Store.numAt_incr (t : Store) (k : String) (cur : Int)
    (hn : t.numAt k = some cur) :
    ∃ t', t.incr k = some (t', cur + 1) ∧ t'.numAt k = some (cur + 1) ∧
      t'.now = t.now ∧ (∀ k', k' ≠ k → t'.lookup k' = t.lookup k') := by
  unfold Store.numAt Store.liveEntry at hn
  unfold Store.incr Store.incrBy
  cases hl : t.lookup k with
  | none =>
    rw [hl] at hn
    simp at hn
    refine ⟨t.setEntry k ⟨RVal.int 1, none⟩, by simp [← hn], ?_, rfl, ?_⟩
    · simp [Store.numAt, Store.liveEntry, Entry.live, RVal.asInt?, ← hn]
    · intro k' hk'
      exact Store.lookup_setEntry_ne t k k' _ hk'
  | some e =>
    rw [hl] at hn
    by_cases hlive : e.live t.now = true
    · simp [hlive] at hn ⊢
      rw [hn]
      have hlive' : Entry.live ⟨RVal.int (cur + 1), e.expireAt⟩ t.now = true := hlive
      refine ⟨t.setEntry k ⟨RVal.int (cur + 1), e.expireAt⟩, rfl, ?_, rfl, ?_⟩
      · simp [Store.numAt, Store.liveEntry, hlive', RVal.asInt?]
      · intro k' hk'
        exact Store.lookup_setEntry_ne t k k' _ hk'
    · simp [hlive] at hn ⊢
      refine ⟨t.setEntry k ⟨RVal.int 1, none⟩, by simp [← hn], ?_, rfl, ?_⟩
      · simp [Store.numAt, Store.liveEntry, Entry.live, RVal.asInt?, ← hn]
      · intro k' hk'
        exact Store.lookup_setEntry_ne t k k' _ hk'

theorem afterAdmission_incremented (env : RunEnv) (s : Store) (j : Job) (b : Bool) :
    (afterAdmission env s j b).incremented = b := by
  unfold afterAdmission
  by_cases h : env.storeUp = true <;> simp [h]

theorem retryGo_frame (hOk : Nat → Bool) (j : Job) (s : Store) (k : String)
    (hk : k ≠ _make_status_key j.key) :
    ∀ fuel attempts c, (retryGo hOk j attempts c s fuel).store.lookup k = s.lookup k ∧
      (retryGo hOk j attempts c s fuel).store.now = s.now := by
  intro fuel
  induction fuel with
  | zero => intro attempts c; exact ⟨rfl, rfl⟩
  | succ m ih =>
    intro attempts c
    unfold retryGo
    by_cases h1 : attempts < j.max_attempts
    · rw [if_pos h1]
      by_cases h2 : hOk c = true
      · rw [h2]
        simp only [if_true]
        constructor
        · exact Store.lookup_setEntry_ne s _ k _ hk
        · rfl
      · simp only [h2]
        by_cases h3 : j.max_attempts ≤ attempts + 1
        · rw [if_pos h3]
          simp only [Bool.false_eq_true, if_false]
          constructor
          · exact Store.lookup_setEntry_ne s _ k _ hk
          · rfl
        · rw [if_neg h3]
          simp only [Bool.false_eq_true, if_false]
          exact ih (attempts + 1) (c + 1)
    · rw [if_neg h1]
      exact ⟨rfl, rfl⟩

theorem Store.incr_entry (t : Store) (k : String) (cur : Int)
    (hn : t.numAt k = some cur) :
    ∃ (t' : Store) (T : Option Nat), t.incr k = some (t', cur + 1) ∧
      t'.lookup k = some ⟨RVal.int (cur + 1), T⟩ ∧
      Entry.live ⟨RVal.int (cur + 1), T⟩ t'.now = true ∧
      t'.now = t.now ∧ (∀ k', k' ≠ k → t'.lookup k' = t.lookup k') := by
  unfold Store.numAt Store.liveEntry at hn
  unfold Store.incr Store.incrBy
  cases hl : t.lookup k with
  | none =>
    rw [hl] at hn
    simp at hn
    refine ⟨t.setEntry k ⟨RVal.int 1, none⟩, none, ?_, ?_, ?_, rfl, ?_⟩
    · simp [← hn]
    · simp [← hn]
    · rfl
    · intro k' hk'
      exact Store.lookup_setEntry_ne t k k' _ hk'
  | some e =>
    rw [hl] at hn
    by_cases hlive : e.live t.now = true
    · simp [hlive] at hn
      refine ⟨t.setEntry k ⟨RVal.int (cur + 1), e.expireAt⟩, e.expireAt, ?_, ?_, ?_, rfl, ?_⟩
      · simp [hlive, hn]
      · simp
      · exact hlive
      · intro k' hk'
        exact Store.lookup_setEntry_ne t k k' _ hk'
    · simp [hlive] at hn
      refine ⟨t.setEntry k ⟨RVal.int 1, none⟩, none, ?_, ?_, ?_, rfl, ?_⟩
      · simp [hlive, ← hn]
      · simp [← hn]
      · rfl
      · intro k' hk'
        exact Store.lookup_setEntry_ne t k k' _ hk'

theorem Store.decr_of_int_entry (t : Store) (k : String) (m : Int) (T : Option Nat)
    (hl : t.lookup k = some ⟨RVal.int m, T⟩)
    (hlive : Entry.live ⟨RVal.int m, T⟩ t.now = true) :
    t.decr k = some (t.setEntry k ⟨RVal.int (m + -1), T⟩, m + -1) := by
  unfold Store.decr Store.incrBy
  rw [hl]
  simp [hlive, RVal.asInt?]

theorem decrRetry_spec (decrOk : Nat → Bool) (s s' : Store) (n : Int)
    (hd : s.decr GLOBAL_JOB_COUNTER_KEY = some (s', n)) :
    (decrOk 0 = true → decrRetry decrOk s = ⟨s', 1, 1, [], false⟩) ∧
    (decrOk 0 = false → decrOk 1 = true →
      decrRetry decrOk s = ⟨s', 2, 1, [1 / 10], false⟩) ∧
    (decrOk 0 = false → decrOk 1 = false → decrOk 2 = true →
      decrRetry decrOk s = ⟨s', 3, 1, [1 / 10, 1 / 5], false⟩) ∧
    (decrOk 0 = false → decrOk 1 = false → decrOk 2 = false →
      decrRetry decrOk s = ⟨s, 3, 0, [1 / 10, 1 / 5], true⟩) := by
  refine ⟨?_, ?_, ?_, ?_⟩
  · intro h0
    unfold decrRetry decrGo
    simp [h0, hd]
  · intro h0 h1
    unfold decrRetry decrGo decrGo
    simp [h0, h1, hd]
  · intro h0 h1 h2
    unfold decrRetry decrGo decrGo decrGo
    simp [h0, h1, h2, hd]
    norm_num
  · intro h0 h1 h2
    unfold decrRetry decrGo decrGo decrGo
    simp [h0, h1, h2]
    norm_num

theorem runBody_incremented_store (env : RunEnv) (s : Store) (j : Job)
    (h : (runBody env s j).incremented = true) :
    env.storeUp = true ∧
    ∃ (m : Int) (T : Option Nat),
      (runBody env s j).store.lookup GLOBAL_JOB_COUNTER_KEY = some ⟨RVal.int m, T⟩ ∧
      Entry.live ⟨RVal.int m, T⟩ (runBody env s j).store.now = true := by
  unfold runBody at h ⊢
  by_cases hcrit : j.criticality ≠ "critical"
  · rw [if_pos hcrit] at h ⊢
    by_cases hup : env.storeUp = true
    · simp only [hup, if_true] at h ⊢
      cases hc : check_and_incr s GLOBAL_JOB_COUNTER_KEY MAX_RUNNING_JOBS with
      | none =>
        rw [hc] at h
        by_cases hbe : j.criticality = "best_effort" <;> simp [hbe] at h
      | some p =>
        obtain ⟨s1, r⟩ := p
        cases r with
        | zero =>
          rw [hc] at h
          by_cases hbe : j.criticality = "best_effort" <;> simp [hbe] at h
        | succ r' =>
          refine ⟨trivial, ?_⟩
          have hentry : ∃ (m : Int) (T : Option Nat),
              s1.lookup GLOBAL_JOB_COUNTER_KEY = some ⟨RVal.int m, T⟩ ∧
              Entry.live ⟨RVal.int m, T⟩ s1.now = true := by
            unfold check_and_incr at hc
            cases hn : s.numAt GLOBAL_JOB_COUNTER_KEY with
            | none => rw [hn] at hc; simp at hc
            | some cur =>
              rw [hn] at hc
              by_cases hcur : MAX_RUNNING_JOBS ≤ cur
              · simp [hcur] at hc
              · obtain ⟨t', T, ht', hlk, hlv, hnow, _⟩ :=
                  Store.incr_entry s GLOBAL_JOB_COUNTER_KEY cur hn
                simp [hcur, ht'] at hc
                obtain ⟨rfl, -⟩ := hc
                exact ⟨cur + 1, T, hlk, hlv⟩
          obtain ⟨m, T, hlk, hlv⟩ := hentry
          show ∃ (m : Int) (T : Option Nat),
            (afterAdmission env s1 j true).store.lookup GLOBAL_JOB_COUNTER_KEY =
              some ⟨RVal.int m, T⟩ ∧
            Entry.live ⟨RVal.int m, T⟩ (afterAdmission env s1 j true).store.now = true
          unfold afterAdmission
          rw [hup]
          simp only [if_true]
          unfold retryLoop
          have hframe := retryGo_frame env.handlerOk j
            (s1.set (_make_status_key j.key) (JobStatus.running.value) (some 3600))
            GLOBAL_JOB_COUNTER_KEY (make_status_key_ne_global j.key).symm
            (j.max_attempts - j.attempts) j.attempts 0
          refine ⟨m, T, ?_, ?_⟩
          · rw [hframe.1]
            rw [Store.set, Store.lookup_setEntry_ne s1 _ _ _ (make_status_key_ne_global j.key).symm]
            exact hlk
          · rw [hframe.2]
            exact hlv
    · rw [if_neg hup] at h
      by_cases hbe : j.criticality = "best_effort" <;> simp [hbe] at h
  · rw [if_neg hcrit] at h
    rw [afterAdmission_incremented] at h
    exact absurd h (by simp)

theorem sleep_list_shift (b M : ℚ) (attempts k : Nat) :
    (List.range (k + 1)).map (fun i =>
        min (b * ((attempts + i + 1 : Nat) : ℚ)) M) =
      min (b * ((attempts + 1 : Nat) : ℚ)) M ::
        (List.range k).map (fun i =>
          min (b * ((attempts + 1 + i + 1 : Nat) : ℚ)) M) := by
  rw [List.range_succ_eq_map, List.map_cons, List.map_map]
  congr 1
  apply List.map_congr_left
  intro a _
  simp only [Function.comp_apply]
  push_cast
  ring_nf

theorem decrGo_frame (decrOk : Nat → Bool) (t : Store) (k' : String)
    (hk : k' ≠ GLOBAL_JOB_COUNTER_KEY) :
    ∀ (fuel i : Nat) (delay : ℚ),
      (decrGo decrOk t i delay fuel).store.lookup k' = t.lookup k' := by
  intro fuel
  induction fuel with
  | zero => intro i delay; rfl
  | succ f ih =>
    intro i delay
    unfold decrGo
    cases hcall : (if decrOk i = true then (t.decr GLOBAL_JOB_COUNTER_KEY).map Prod.fst
        else none) with
    | some s' =>
      by_cases hd : decrOk i = true
      · rw [hd] at hcall
        simp only [if_true] at hcall
        cases hdec : t.decr GLOBAL_JOB_COUNTER_KEY with
        | none => rw [hdec] at hcall; simp at hcall
        | some p =>
          rw [hdec] at hcall
          simp at hcall
          rw [← hcall]
          exact Store.lookup_incrBy_ne t GLOBAL_JOB_COUNTER_KEY k' (-1) p.1 p.2 hdec hk
      · simp [hd] at hcall
    | none =>
      by_cases hf : f = 0
      · simp [hf]
      · simp [hf]
        exact ih (i + 1) (delay * 2)

theorem retryGo_fail_then_succeed (hOk : Nat → Bool) (j : Job) (s : Store) :
    ∀ (k attempts c : Nat),
      (∀ i, i < k → hOk (c + i) = false) → hOk (c + k) = true →
      attempts + k < j.max_attempts →
      retryGo hOk j attempts c s (j.max_attempts - attempts) =
        ⟨s.set (_make_status_key j.key) (JobStatus.succeeded.value) (some 86400),
          k + 1, k,
          (List.range k).map (fun i =>
            min (j.backoff_seconds * ((attempts + i + 1 : Nat) : ℚ))
                (j.backoff_seconds * (j.max_attempts : ℚ))),
          LoopFinal.succeeded⟩ := by
  intro k
  induction k with
  | zero =>
    intro attempts c _ hsucc hlt
    simp only [Nat.add_zero] at hlt hsucc
    obtain ⟨f, hf⟩ : ∃ f, j.max_attempts - attempts = f + 1 :=
      ⟨j.max_attempts - attempts - 1, by omega⟩
    rw [hf]
    unfold retryGo
    rw [if_pos hlt, hsucc]
    simp
  | succ k ih =>
    intro attempts c hfail hsucc hlt
    have hlt1 : attempts < j.max_attempts := by omega
    have hnotlast : ¬ j.max_attempts ≤ attempts + 1 := by omega
    obtain ⟨f, hf⟩ : ∃ f, j.max_attempts - attempts = f + 1 :=
      ⟨j.max_attempts - attempts - 1, by omega⟩
    have hfrec : f = j.max_attempts - (attempts + 1) := by omega
    have h0 : hOk c = false := by
      have := hfail 0 (by omega)
      simpa using this
    rw [hf]
    unfold retryGo
    rw [if_pos hlt1, h0]
    simp only [Bool.false_eq_true, if_false]
    rw [if_neg hnotlast]
    have ihx := ih (attempts + 1) (c + 1)
      (fun i hi => by
        have := hfail (i + 1) (by omega)
        simpa [Nat.add_assoc, Nat.add_comm 1 i] using this)
      (by
        have : c + 1 + k = c + (k + 1) := by omega
        rw [this]
        exact hsucc)
      (by omega)
    rw [hfrec, ihx]
    simp only [LoopOut.mk.injEq, true_and, and_true]
    rw [sleep_list_shift]

theorem retryGo_all_fail (hOk : Nat → Bool) (j : Job) (s : Store) :
    ∀ (n attempts c : Nat),
      (∀ i, hOk i = false) → attempts + n = j.max_attempts → 0 < n →
      retryGo hOk j attempts c s (j.max_attempts - attempts) =
        ⟨s.set (_make_status_key j.key) (JobStatus.failed.value) (some 86400),
          n, n,
          (List.range (n - 1)).map (fun i =>
            min (j.backoff_seconds * ((attempts + i + 1 : Nat) : ℚ))
                (j.backoff_seconds * (j.max_attempts : ℚ))),
          LoopFinal.failedPerm⟩ := by
  intro n
  induction n with
  | zero => intro attempts c _ _ hpos; exact absurd hpos (by omega)
  | succ n ih =>
    intro attempts c hfail hsum _
    have hlt1 : attempts < j.max_attempts := by omega
    obtain ⟨f, hf⟩ : ∃ f, j.max_attempts - attempts = f + 1 :=
      ⟨j.max_attempts - attempts - 1, by omega⟩
    rw [hf]
    unfold retryGo
    rw [if_pos hlt1, hfail c]
    simp only [Bool.false_eq_true, if_false]
    rcases Nat.eq_zero_or_pos n with rfl | hn
    · have hlast : j.max_attempts ≤ attempts + 1 := by omega
      rw [if_pos hlast]
      simp
    · have hnotlast : ¬ j.max_attempts ≤ attempts + 1 := by omega
      rw [if_neg hnotlast]
      have hfrec : f = j.max_attempts - (attempts + 1) := by omega
      have ihx := ih (attempts + 1) (c + 1) hfail (by omega) hn
      rw [hfrec, ihx]
      simp only [LoopOut.mk.injEq, true_and, and_true]
      have hn1 : n + 1 - 1 = (n - 1) + 1 := by omega
      rw [hn1, sleep_list_shift]

/-!
Claim theorems.
-/

/-- C6: `try_acquire_lock(key, ttl)` is an atomic set-if-absent with TTL:
it returns true iff the lock key was absent at the moment of the call, so
two acquisitions of the same key with no intervening release or expiry
cannot both return true. -/
theorem C6_lock_mutual_exclusion (s : Store) (key : String) (ttl : Nat)
    (httl : 0 < ttl) :
    ((try_acquire_lock s key ttl).2 = true ↔ s.get ("lock:" ++ key) = none) ∧
    ¬((try_acquire_lock s key ttl).2 = true ∧
      (try_acquire_lock (try_acquire_lock s key ttl).1 key ttl).2 = true) := by
  unfold try_acquire_lock Store.setnx
  cases hg : s.get ("lock:" ++ key) with
  | some v => simp [hg]
  | none =>
    simp [hg]
    rw [Store.get_set_self_pos s ("lock:" ++ key) ("1") ttl httl]

/-- Witness for C6 at a concrete store: the first acquisition of `sched`
on an empty store succeeds and an immediate second acquisition fails. -/
theorem C6_lock_mutual_exclusion_witness :
    (try_acquire_lock ⟨0, []⟩ ("sched") 90).2 = true ∧
    ¬(try_acquire_lock (try_acquire_lock ⟨0, []⟩ ("sched") 90).1 ("sched") 90).2 = true := by
  have h := C6_lock_mutual_exclusion ⟨0, []⟩ ("sched") 90 (by decide)
  have h1 : (try_acquire_lock ⟨0, []⟩ ("sched") 90).2 = true := h.1.mpr (by decide)
  exact ⟨h1, fun h2 => h.2 ⟨h1, h2⟩⟩

/-- Counterexample for C7: the lock value is the constant `"1"` and
`extend_lock` is a bare EXPIRE, so a caller that never acquired the lock
(and so cannot own it) still gets `true` when extending a lock another
process holds — the claim says such a caller cannot successfully extend. -/
theorem C7_extend_lock_counterexample :
    (try_acquire_lock ⟨0, []⟩ ("sched") 90).2 = true ∧
    (extend_lock (try_acquire_lock ⟨0, []⟩ ("sched") 90).1 ("sched") 60).2 = true := by
  decide

/-- C7 (amended): `extend_lock(key, ttl)` returns true iff the lock key
exists (is live) at call time, in which case the lock's TTL is reset to
the new value whoever the caller is — the lock carries no owner token, so
ownership plays no part; it returns false iff the lock no longer exists. -/
theorem C7_extend_lock_exists (s : Store) (key : String) (ttl : Nat) :
    ((extend_lock s key ttl).2 = true ↔ (s.liveEntry ("lock:" ++ key)).isSome) ∧
    (∀ e, s.liveEntry ("lock:" ++ key) = some e →
      extend_lock s key ttl =
        (s.setEntry ("lock:" ++ key) ⟨e.value, some (s.now + ttl)⟩, true)) ∧
    (s.liveEntry ("lock:" ++ key) = none → extend_lock s key ttl = (s, false)) := by
  unfold extend_lock Store.expireCmd Store.liveEntry
  cases hl : s.lookup ("lock:" ++ key) with
  | none => simp [hl]
  | some e =>
    cases hlive : e.live s.now with
    | true => simp [hl, hlive]
    | false => simp [hl, hlive]

/-- Witness for C7's amended statement: extending an existing lock
returns true and resets its deadline; extending a missing lock returns
false. -/
theorem C7_extend_lock_exists_witness :
    (extend_lock ⟨0, [("lock:sched", ⟨RVal.str ("1"), some 90⟩)]⟩ ("sched") 60).2 = true ∧
    extend_lock ⟨0, []⟩ ("sched") 60 = (⟨0, []⟩, false) := by
  constructor
  · exact (C7_extend_lock_exists ⟨0, [("lock:sched", ⟨RVal.str ("1"), some 90⟩)]⟩ ("sched") 60).1.mpr
      (by decide)
  · exact (C7_extend_lock_exists ⟨0, []⟩ ("sched") 60).2.2 (by decide)

/-- C10: `check_login_rate_limit` lowercases the email before key
derivation, so two emails equal up to letter case yield the same
rate-limit key and the whole check behaves identically for them, for any
client IP, store state and hash function. -/
theorem C10_login_rate_limit_case_insensitive (h : String → String) (up : Bool)
    (s : Store) (e1 e2 : String) (ip : Option String)
    (hcase : pyLower e1 = pyLower e2) :
    _make_key h ("login") (pyLower e1) ip = _make_key h ("login") (pyLower e2) ip ∧
    check_login_rate_limit h up s e1 ip = check_login_rate_limit h up s e2 ip := by
  constructor
  · rw [hcase]
  · unfold check_login_rate_limit
    rw [hcase]

/-- Witness for C10 at mixed-case variants of the same address. -/
theorem C10_login_rate_limit_case_insensitive_witness :
    check_login_rate_limit (fun x => x) true ⟨0, []⟩ ("User@Example.COM") (some ("1.2.3.1")) =
      check_login_rate_limit (fun x => x) true ⟨0, []⟩ ("user@example.com") (some ("1.2.3.1")) := by
  exact (C10_login_rate_limit_case_insensitive (fun x => x) true ⟨0, []⟩
    ("User@Example.COM") ("user@example.com") (some ("1.2.3.1")) (by decide)).2

/-- C4: `enqueue(job)` returns the job unchanged and records nothing
locally when the stored status is `queued`, `running` or `succeeded`;
when the status is absent it claims the key with a conditional SET NX of
`queued` under a 1-hour TTL and records the job in the local pending set;
when the status key is still present (in particular a live `failed`
status, and any conditional set lost to another worker) the conditional
set reports the key present and the job is skipped as a duplicate with
nothing recorded. -/
theorem C4_enqueue_dedup (jobs : List (String × Job)) (s : Store) (j : Job) :
    (enqueue true true jobs s j).job = j ∧
    (∀ st : JobStatus, st ≠ JobStatus.failed →
      s.get (_make_status_key j.key) = some st.value →
      enqueue true true jobs s j = ⟨j, jobs, s, EnqOutcome.skippedDuplicateStatus st⟩) ∧
    (s.get (_make_status_key j.key) = none →
      enqueue true true jobs s j =
        ⟨j, (j.key, j) :: jobs.filter (fun p => p.1 ≠ j.key),
          s.set (_make_status_key j.key) (JobStatus.queued.value) (some 3600),
          EnqOutcome.enqueued⟩) ∧
    (s.get (_make_status_key j.key) = some (JobStatus.failed.value) →
      enqueue true true jobs s j = ⟨j, jobs, s, EnqOutcome.skippedDuplicateRace⟩) := by
  refine ⟨?_, ?_, ?_, ?_⟩
  · unfold enqueue
    cases hg : s.get (_make_status_key j.key) with
    | none => simp [hg, Store.setnx]
    | some v =>
      simp only [if_true]
      cases hp : JobStatus.ofString? v with
      | none => simp [hp]
      | some st =>
        cases st with
        | queued => simp [hp]
        | running => simp [hp]
        | succeeded => simp [hp]
        | failed => simp [hp, Store.setnx, hg]
  · intro st hst hget
    unfold enqueue
    rw [hget]
    cases st with
    | queued => simp [JobStatus.ofString?, JobStatus.value]
    | running => simp [JobStatus.ofString?, JobStatus.value]
    | succeeded => simp [JobStatus.ofString?, JobStatus.value]
    | failed => exact absurd rfl hst
  · intro hget
    unfold enqueue
    rw [hget]
    simp [Store.setnx, hget]
  · intro hget
    unfold enqueue
    rw [hget]
    simp [JobStatus.ofString?, JobStatus.value, Store.setnx, hget]

/-- Witness for C4 at concrete inputs: a `running` status blocks
re-enqueue, a fresh key is claimed and recorded, and a live `failed`
status loses the conditional set and is skipped. -/
theorem C4_enqueue_dedup_witness :
    enqueue true true [] ⟨0, [("job:status:k1", ⟨RVal.str ("running"), some 3600⟩)]⟩
        ⟨"k1", 3, 1, 0, "important"⟩ =
      ⟨⟨"k1", 3, 1, 0, "important"⟩, [], ⟨0, [("job:status:k1", ⟨RVal.str ("running"), some 3600⟩)]⟩,
        EnqOutcome.skippedDuplicateStatus JobStatus.running⟩ ∧
    (enqueue true true [] ⟨0, []⟩ ⟨"k1", 3, 1, 0, "important"⟩).outcome = EnqOutcome.enqueued ∧
    (enqueue true true [] ⟨0, [("job:status:k1", ⟨RVal.str ("failed"), some 86400⟩)]⟩
        ⟨"k1", 3, 1, 0, "important"⟩).outcome = EnqOutcome.skippedDuplicateRace := by
  refine ⟨?_, ?_, ?_⟩
  · exact (C4_enqueue_dedup [] ⟨0, [("job:status:k1", ⟨RVal.str ("running"), some 3600⟩)]⟩
      ⟨"k1", 3, 1, 0, "important"⟩).2.1 JobStatus.running (by decide) (by decide)
  · rw [(C4_enqueue_dedup [] ⟨0, []⟩ ⟨"k1", 3, 1, 0, "important"⟩).2.2.1 (by decide)]
  · rw [(C4_enqueue_dedup [] ⟨0, [("job:status:k1", ⟨RVal.str ("failed"), some 86400⟩)]⟩
      ⟨"k1", 3, 1, 0, "important"⟩).2.2.2 (by decide)]

/-- C1: a non-critical job whose admission sees the global counter at the
`MAX_RUNNING_JOBS = 20` ceiling is never started: the counter is not
incremented, the status is set to `failed` with a 24h TTL, the handler is
never invoked, no retry sleep happens and the cleanup decrement never
runs; a `best_effort` job is dropped, an `important` one rejected.
Moreover a single atomic check-and-increment step — and hence any
serialized sequence of concurrent admission attempts — never drives the
counter above 20. -/
theorem C1_admission_ceiling (env : RunEnv) (s : Store) (j : Job) (v : Int)
    (hcrit : j.criticality ≠ "critical") (hup : env.storeUp = true)
    (hv : s.numAt GLOBAL_JOB_COUNTER_KEY = some v) (hge : MAX_RUNNING_JOBS ≤ v) :
    (run_job env s j).handlerCalls = 0 ∧
    (run_job env s j).incremented = false ∧
    (run_job env s j).store.lookup GLOBAL_JOB_COUNTER_KEY =
      s.lookup GLOBAL_JOB_COUNTER_KEY ∧
    (run_job env s j).store.lookup (_make_status_key j.key) =
      some ⟨RVal.str (JobStatus.failed.value), some (s.now + 86400)⟩ ∧
    (run_job env s j).sleeps = [] ∧
    (run_job env s j).decrAttempts = 0 ∧
    (run_job env s j).outcome =
      (if j.criticality = "best_effort" then Outcome.droppedLimit
       else Outcome.rejectedLimit) ∧
    (∀ t : Store,
      (∀ w, t.numAt GLOBAL_JOB_COUNTER_KEY = some w → w ≤ MAX_RUNNING_JOBS) →
      ∀ w, (admit_step t).numAt GLOBAL_JOB_COUNTER_KEY = some w →
        w ≤ MAX_RUNNING_JOBS) ∧
    (∀ (n : Nat) (t : Store),
      (∀ w, t.numAt GLOBAL_JOB_COUNTER_KEY = some w → w ≤ MAX_RUNNING_JOBS) →
      ∀ w, (admit_step^[n] t).numAt GLOBAL_JOB_COUNTER_KEY = some w →
        w ≤ MAX_RUNNING_JOBS) := by
  have hstep : ∀ t : Store,
      (∀ w, t.numAt GLOBAL_JOB_COUNTER_KEY = some w → w ≤ MAX_RUNNING_JOBS) →
      ∀ w, (admit_step t).numAt GLOBAL_JOB_COUNTER_KEY = some w →
        w ≤ MAX_RUNNING_JOBS := by
    intro t hinv w hw
    unfold admit_step check_and_incr at hw
    cases hn : t.numAt GLOBAL_JOB_COUNTER_KEY with
    | none => rw [hn] at hw; simp at hw; exact hinv w hw
    | some cur =>
      rw [hn] at hw
      by_cases hcur : MAX_RUNNING_JOBS ≤ cur
      · simp [hcur] at hw
        exact hinv w hw
      · obtain ⟨t', ht', hnum', _, _⟩ := Store.numAt_incr t GLOBAL_JOB_COUNTER_KEY cur hn
        simp [hcur, ht'] at hw
        rw [hnum'] at hw
        simp at hw
        omega
  have hscript : check_and_incr s GLOBAL_JOB_COUNTER_KEY MAX_RUNNING_JOBS =
      some (s, 0) := by
    unfold check_and_incr
    rw [hv]
    simp [hge]
  have hbody : runBody env s j =
      ⟨s.set (_make_status_key j.key) (JobStatus.failed.value) (some 86400),
        false, 0, 0, [],
        if j.criticality = "best_effort" then Outcome.droppedLimit
        else Outcome.rejectedLimit⟩ := by
    unfold runBody
    rw [if_pos hcrit, hup]
    simp only [if_true]
    rw [hscript]
    by_cases hbe : j.criticality = "best_effort" <;> simp [hbe]
  have hrun : run_job env s j =
      ⟨s.set (_make_status_key j.key) (JobStatus.failed.value) (some 86400),
        false, 0, 0, [],
        (if j.criticality = "best_effort" then Outcome.droppedLimit
         else Outcome.rejectedLimit), 0, 0, [], false⟩ := by
    unfold run_job
    rw [hbody]
    simp
  rw [hrun]
  refine ⟨rfl, rfl, ?_, ?_, rfl, rfl, rfl, hstep, ?_⟩
  · exact Store.lookup_setEntry_ne s _ _ _ (make_status_key_ne_global j.key).symm
  · rw [Store.set, Store.lookup_setEntry_self]
    rfl
  · intro n
    induction n with
    | zero => intro t hinv; simpa using hinv
    | succ m ih =>
      intro t hinv
      rw [Function.iterate_succ_apply']
      exact hstep _ (ih t hinv)

/-- Witness for C1: a saturated counter (value 20) drops a concrete
`best_effort` job without invoking its handler or touching the counter,
and iterating admission steps from a counter at 19 never exceeds 20. -/
theorem C1_admission_ceiling_witness :
    (run_job ⟨true, fun _ => true, fun _ => true⟩
        ⟨0, [(GLOBAL_JOB_COUNTER_KEY, ⟨RVal.int 20, none⟩)]⟩
        ⟨"k1", 3, 1, 0, "best_effort"⟩).handlerCalls = 0 ∧
    (run_job ⟨true, fun _ => true, fun _ => true⟩
        ⟨0, [(GLOBAL_JOB_COUNTER_KEY, ⟨RVal.int 20, none⟩)]⟩
        ⟨"k1", 3, 1, 0, "best_effort"⟩).outcome = Outcome.droppedLimit ∧
    (run_job ⟨true, fun _ => true, fun _ => true⟩
        ⟨0, [(GLOBAL_JOB_COUNTER_KEY, ⟨RVal.int 20, none⟩)]⟩
        ⟨"k1", 3, 1, 0, "best_effort"⟩).store.lookup GLOBAL_JOB_COUNTER_KEY =
      some ⟨RVal.int 20, none⟩ ∧
    (∀ w, (admit_step^[5] ⟨0, [(GLOBAL_JOB_COUNTER_KEY, ⟨RVal.int 19, none⟩)]⟩).numAt
        GLOBAL_JOB_COUNTER_KEY = some w → w ≤ MAX_RUNNING_JOBS) := by
  have h := C1_admission_ceiling ⟨true, fun _ => true, fun _ => true⟩
    ⟨0, [(GLOBAL_JOB_COUNTER_KEY, ⟨RVal.int 20, none⟩)]⟩
    ⟨"k1", 3, 1, 0, "best_effort"⟩ 20 (by decide) rfl (by decide) (by decide)
  refine ⟨h.1, ?_, ?_, ?_⟩
  · rw [h.2.2.2.2.2.2.1]
    decide
  · rw [h.2.2.1]
    decide
  · exact h.2.2.2.2.2.2.2.2 5 ⟨0, [(GLOBAL_JOB_COUNTER_KEY, ⟨RVal.int 19, none⟩)]⟩
      (by decide)

/-- C3: the cleanup (`finally`) block decrements the global counter
exactly once if and only if this job's admission incremented it.  A run
that did not increment (critical jobs, rejected/dropped jobs, admission
errors) performs no decrement attempt at all; a run that did increment
performs at most one successful DECR: the first reachable attempt takes
the counter from `m` to `m - 1`, each failed attempt is retried after
0.1s then 0.2s (doubling backoff), and after 3 failed attempts the
decrement is abandoned with a permanent-failure error log, leaving the
counter inflated. -/
theorem C3_counter_decrement (env : RunEnv) (s : Store) (j : Job) :
    ((run_job env s j).incremented = false →
      (run_job env s j).decrAttempts = 0 ∧ (run_job env s j).decrCount = 0 ∧
      (run_job env s j).decrSleeps = [] ∧
      (run_job env s j).store = (runBody env s j).store) ∧
    (run_job env s j).decrCount ≤ 1 ∧
    ((run_job env s j).incremented = true →
      ∃ (m : Int) (T : Option Nat),
        (runBody env s j).store.lookup GLOBAL_JOB_COUNTER_KEY =
          some ⟨RVal.int m, T⟩ ∧
        (env.decrOk 0 = true →
          (run_job env s j).decrAttempts = 1 ∧ (run_job env s j).decrCount = 1 ∧
          (run_job env s j).decrSleeps = [] ∧ (run_job env s j).decrGaveUp = false ∧
          (run_job env s j).store.lookup GLOBAL_JOB_COUNTER_KEY =
            some ⟨RVal.int (m + -1), T⟩) ∧
        (env.decrOk 0 = false → env.decrOk 1 = true →
          (run_job env s j).decrAttempts = 2 ∧ (run_job env s j).decrCount = 1 ∧
          (run_job env s j).decrSleeps = [1 / 10] ∧
          (run_job env s j).decrGaveUp = false ∧
          (run_job env s j).store.lookup GLOBAL_JOB_COUNTER_KEY =
            some ⟨RVal.int (m + -1), T⟩) ∧
        (env.decrOk 0 = false → env.decrOk 1 = false → env.decrOk 2 = true →
          (run_job env s j).decrAttempts = 3 ∧ (run_job env s j).decrCount = 1 ∧
          (run_job env s j).decrSleeps = [1 / 10, 1 / 5] ∧
          (run_job env s j).decrGaveUp = false ∧
          (run_job env s j).store.lookup GLOBAL_JOB_COUNTER_KEY =
            some ⟨RVal.int (m + -1), T⟩) ∧
        (env.decrOk 0 = false → env.decrOk 1 = false → env.decrOk 2 = false →
          (run_job env s j).decrAttempts = 3 ∧ (run_job env s j).decrCount = 0 ∧
          (run_job env s j).decrSleeps = [1 / 10, 1 / 5] ∧
          (run_job env s j).decrGaveUp = true ∧
          (run_job env s j).store.lookup GLOBAL_JOB_COUNTER_KEY =
            some ⟨RVal.int m, T⟩)) := by
  by_cases hinc : (runBody env s j).incremented = true
  · obtain ⟨hup, m, T, hlk, hlv⟩ := runBody_incremented_store env s j hinc
    have hd := Store.decr_of_int_entry (runBody env s j).store GLOBAL_JOB_COUNTER_KEY
      m T hlk hlv
    have hsp := decrRetry_spec env.decrOk (runBody env s j).store _ _ hd
    have hrj : run_job env s j =
        ⟨(decrRetry env.decrOk (runBody env s j).store).store,
          (runBody env s j).incremented, (runBody env s j).handlerCalls,
          (runBody env s j).failureLogs, (runBody env s j).sleeps,
          (runBody env s j).outcome,
          (decrRetry env.decrOk (runBody env s j).store).attempts,
          (decrRetry env.decrOk (runBody env s j).store).decrCount,
          (decrRetry env.decrOk (runBody env s j).store).sleeps,
          (decrRetry env.decrOk (runBody env s j).store).gaveUp⟩ := by
      unfold run_job
      simp [hinc]
    rw [hrj]
    refine ⟨?_, ?_, ?_⟩
    · intro hfalse
      rw [hinc] at hfalse
      exact absurd hfalse (by simp)
    · by_cases h0 : env.decrOk 0 = true
      · rw [hsp.1 h0]
      · rw [Bool.not_eq_true] at h0
        by_cases h1 : env.decrOk 1 = true
        · rw [hsp.2.1 h0 h1]
        · rw [Bool.not_eq_true] at h1
          by_cases h2 : env.decrOk 2 = true
          · rw [hsp.2.2.1 h0 h1 h2]
          · rw [Bool.not_eq_true] at h2
            rw [hsp.2.2.2 h0 h1 h2]; simp
    · intro _
      refine ⟨m, T, hlk, ?_, ?_, ?_, ?_⟩
      · intro h0
        rw [hsp.1 h0]
        simp
      · intro h0 h1
        rw [hsp.2.1 h0 h1]
        simp
      · intro h0 h1 h2
        rw [hsp.2.2.1 h0 h1 h2]
        simp
      · intro h0 h1 h2
        rw [hsp.2.2.2 h0 h1 h2]
        simp [hlk]
  · rw [Bool.not_eq_true] at hinc
    have hrj : run_job env s j =
        ⟨(runBody env s j).store, (runBody env s j).incremented,
          (runBody env s j).handlerCalls, (runBody env s j).failureLogs,
          (runBody env s j).sleeps, (runBody env s j).outcome, 0, 0, [], false⟩ := by
      unfold run_job
      simp [hinc]
    rw [hrj]
    refine ⟨fun _ => ⟨rfl, rfl, rfl, rfl⟩, by simp, ?_⟩
    intro htrue
    rw [hinc] at htrue
    exact absurd htrue (by simp)

/-- Witness for C3: an admitted `important` job on a fresh store whose
first decrement attempt fails and second succeeds performs exactly one
decrement after a 0.1s backoff. -/
theorem C3_counter_decrement_witness :
    (run_job ⟨true, fun _ => true, fun n => decide (n = 1)⟩ ⟨0, []⟩
        ⟨"k1", 3, 1, 0, "important"⟩).decrAttempts = 2 ∧
    (run_job ⟨true, fun _ => true, fun n => decide (n = 1)⟩ ⟨0, []⟩
        ⟨"k1", 3, 1, 0, "important"⟩).decrCount = 1 ∧
    (run_job ⟨true, fun _ => true, fun n => decide (n = 1)⟩ ⟨0, []⟩
        ⟨"k1", 3, 1, 0, "important"⟩).decrSleeps = [1 / 10] := by
  have h := (C3_counter_decrement ⟨true, fun _ => true, fun n => decide (n = 1)⟩ ⟨0, []⟩
    ⟨"k1", 3, 1, 0, "important"⟩).2.2 (by decide)
  obtain ⟨m, T, hlk, hcase⟩ := h
  have hres := hcase.2.1 (by decide) (by decide)
  exact ⟨hres.1, hres.2.1, hres.2.2.1⟩

/-- C5: for an admitted `important` job starting at `attempts = 0`, a
handler that raises on each of the first `max_attempts - 1` invocations
and then returns ends with status `succeeded` (TTL 24h) after exactly
`max_attempts` invocations and `max_attempts - 1` failure log entries; a
handler that always raises ends with status `failed` (TTL 24h) after
exactly `max_attempts` invocations; in both runs the delay slept after
the n-th failure (n = 1, 2, …) is
`min(backoff_seconds * n, backoff_seconds * max_attempts)`. -/
theorem C5_retry_backoff (env : RunEnv) (s : Store) (j : Job) (v : Int)
    (hup : env.storeUp = true) (hcrit : j.criticality = "important")
    (hatt : j.attempts = 0) (hmax : 1 ≤ j.max_attempts)
    (hv : s.numAt GLOBAL_JOB_COUNTER_KEY = some v) (hvlt : v < MAX_RUNNING_JOBS) :
    ((∀ i, i < j.max_attempts - 1 → env.handlerOk i = false) →
      env.handlerOk (j.max_attempts - 1) = true →
      (run_job env s j).handlerCalls = j.max_attempts ∧
      (run_job env s j).failureLogs = j.max_attempts - 1 ∧
      (run_job env s j).outcome = Outcome.succeeded ∧
      (run_job env s j).store.lookup (_make_status_key j.key) =
        some ⟨RVal.str (JobStatus.succeeded.value), some (s.now + 86400)⟩ ∧
      (run_job env s j).sleeps =
        (List.range (j.max_attempts - 1)).map (fun i =>
          min (j.backoff_seconds * ((i + 1 : Nat) : ℚ))
              (j.backoff_seconds * (j.max_attempts : ℚ)))) ∧
    ((∀ i, env.handlerOk i = false) →
      (run_job env s j).handlerCalls = j.max_attempts ∧
      (run_job env s j).failureLogs = j.max_attempts ∧
      (run_job env s j).outcome = Outcome.failedPermanently ∧
      (run_job env s j).store.lookup (_make_status_key j.key) =
        some ⟨RVal.str (JobStatus.failed.value), some (s.now + 86400)⟩ ∧
      (run_job env s j).sleeps =
        (List.range (j.max_attempts - 1)).map (fun i =>
          min (j.backoff_seconds * ((i + 1 : Nat) : ℚ))
              (j.backoff_seconds * (j.max_attempts : ℚ)))) := by
  have hncrit : j.criticality ≠ "critical" := by rw [hcrit]; decide
  obtain ⟨s1, T, hincr, hlk1, hlv1, hnow1, hframe1⟩ :=
    Store.incr_entry s GLOBAL_JOB_COUNTER_KEY v hv
  have hscript : check_and_incr s GLOBAL_JOB_COUNTER_KEY MAX_RUNNING_JOBS =
      some (s1, 1) := by
    unfold check_and_incr
    rw [hv]
    simp [not_le.mpr hvlt, hincr]
  have hbody : runBody env s j = afterAdmission env s1 j true := by
    unfold runBody
    rw [if_pos hncrit, hup]
    simp only [if_true]
    rw [hscript]
  set base := s1.set (_make_status_key j.key) (JobStatus.running.value) (some 3600)
    with hbase
  have hafter : afterAdmission env s1 j true =
      ⟨(retryGo env.handlerOk j 0 0 base j.max_attempts).store, true,
        (retryGo env.handlerOk j 0 0 base j.max_attempts).calls,
        (retryGo env.handlerOk j 0 0 base j.max_attempts).failLogs,
        (retryGo env.handlerOk j 0 0 base j.max_attempts).sleeps,
        match (retryGo env.handlerOk j 0 0 base j.max_attempts).final with
        | LoopFinal.succeeded => Outcome.succeeded
        | LoopFinal.failedPerm => Outcome.failedPermanently
        | LoopFinal.skipped => Outcome.loopSkipped⟩ := by
    unfold afterAdmission retryLoop
    rw [hup]
    simp only [if_true]
    rw [hatt]
    rfl
  have hbody_inc : (runBody env s j).incremented = true := by
    rw [hbody, hafter]
  have hrj : ∀ X : RunResult, run_job env s j = X →
      (X.handlerCalls = (runBody env s j).handlerCalls ∧
       X.failureLogs = (runBody env s j).failureLogs) := by
    intro X hX
    rw [← hX]
    unfold run_job
    simp [hbody_inc]
  have hnow_base : base.now = s.now := by
    rw [hbase, Store.set, Store.now_setEntry, hnow1]
  constructor
  · intro hfail hsucc
    have hloop := retryGo_fail_then_succeed env.handlerOk j base (j.max_attempts - 1)
      0 0 (fun i hi => by simpa using hfail i hi)
      (by simpa using hsucc) (by omega)
    rw [Nat.sub_zero] at hloop
    have hx : run_job env s j =
        ⟨(decrRetry env.decrOk (runBody env s j).store).store, true,
          (runBody env s j).handlerCalls, (runBody env s j).failureLogs,
          (runBody env s j).sleeps, (runBody env s j).outcome,
          (decrRetry env.decrOk (runBody env s j).store).attempts,
          (decrRetry env.decrOk (runBody env s j).store).decrCount,
          (decrRetry env.decrOk (runBody env s j).store).sleeps,
          (decrRetry env.decrOk (runBody env s j).store).gaveUp⟩ := by
      unfold run_job
      simp [hbody_inc]
    rw [hx]
    have hb2 : runBody env s j =
        ⟨(base.set (_make_status_key j.key) (JobStatus.succeeded.value) (some 86400)),
          true, j.max_attempts - 1 + 1, j.max_attempts - 1,
          (List.range (j.max_attempts - 1)).map (fun i =>
            min (j.backoff_seconds * ((0 + i + 1 : Nat) : ℚ))
                (j.backoff_seconds * (j.max_attempts : ℚ))),
          Outcome.succeeded⟩ := by
      rw [hbody, hafter, hloop]
    rw [hb2]
    refine ⟨by simp; omega, rfl, rfl, ?_, ?_⟩
    · have hfr := decrGo_frame env.decrOk
        (base.set (_make_status_key j.key) (JobStatus.succeeded.value) (some 86400))
        (_make_status_key j.key) (make_status_key_ne_global j.key)
      unfold decrRetry
      rw [hfr 3 0 (1 / 10)]
      rw [Store.set, Store.lookup_setEntry_self]
      simp only [Option.map_some']
      rw [hnow_base]
    · apply List.map_congr_left
      intro a _
      simp
  · intro hfail
    have hloop := retryGo_all_fail env.handlerOk j base j.max_attempts 0 0 hfail
      (by omega) (by omega)
    rw [Nat.sub_zero] at hloop
    have hx : run_job env s j =
        ⟨(decrRetry env.decrOk (runBody env s j).store).store, true,
          (runBody env s j).handlerCalls, (runBody env s j).failureLogs,
          (runBody env s j).sleeps, (runBody env s j).outcome,
          (decrRetry env.decrOk (runBody env s j).store).attempts,
          (decrRetry env.decrOk (runBody env s j).store).decrCount,
          (decrRetry env.decrOk (runBody env s j).store).sleeps,
          (decrRetry env.decrOk (runBody env s j).store).gaveUp⟩ := by
      unfold run_job
      simp [hbody_inc]
    rw [hx]
    have hb2 : runBody env s j =
        ⟨(base.set (_make_status_key j.key) (JobStatus.failed.value) (some 86400)),
          true, j.max_attempts, j.max_attempts,
          (List.range (j.max_attempts - 1)).map (fun i =>
            min (j.backoff_seconds * ((0 + i + 1 : Nat) : ℚ))
                (j.backoff_seconds * (j.max_attempts : ℚ))),
          Outcome.failedPermanently⟩ := by
      rw [hbody, hafter, hloop]
    rw [hb2]
    refine ⟨rfl, rfl, rfl, ?_, ?_⟩
    · have hfr := decrGo_frame env.decrOk
        (base.set (_make_status_key j.key) (JobStatus.failed.value) (some 86400))
        (_make_status_key j.key) (make_status_key_ne_global j.key)
      unfold decrRetry
      rw [hfr 3 0 (1 / 10)]
      rw [Store.set, Store.lookup_setEntry_self]
      simp only [Option.map_some']
      rw [hnow_base]
    · apply List.map_congr_left
      intro a _
      simp

/-- Witness for C5 at a concrete job with `max_attempts = 3` and
`backoff_seconds = 1`: two failures then success yield `succeeded`, 3
handler calls, 2 failure logs and sleeps `[1, 2]`; constant failure
yields `failedPermanently` after 3 calls. -/
theorem C5_retry_backoff_witness :
    (run_job ⟨true, fun n => decide (2 ≤ n), fun _ => true⟩ ⟨0, []⟩
        ⟨"k1", 3, 1, 0, "important"⟩).handlerCalls = 3 ∧
    (run_job ⟨true, fun n => decide (2 ≤ n), fun _ => true⟩ ⟨0, []⟩
        ⟨"k1", 3, 1, 0, "important"⟩).failureLogs = 2 ∧
    (run_job ⟨true, fun n => decide (2 ≤ n), fun _ => true⟩ ⟨0, []⟩
        ⟨"k1", 3, 1, 0, "important"⟩).outcome = Outcome.succeeded ∧
    (run_job ⟨true, fun n => decide (2 ≤ n), fun _ => true⟩ ⟨0, []⟩
        ⟨"k1", 3, 1, 0, "important"⟩).sleeps = [1, 2] ∧
    (run_job ⟨true, fun _ => false, fun _ => true⟩ ⟨0, []⟩
        ⟨"k1", 3, 1, 0, "important"⟩).handlerCalls = 3 ∧
    (run_job ⟨true, fun _ => false, fun _ => true⟩ ⟨0, []⟩
        ⟨"k1", 3, 1, 0, "important"⟩).outcome = Outcome.failedPermanently := by
  have h1 := (C5_retry_backoff ⟨true, fun n => decide (2 ≤ n), fun _ => true⟩ ⟨0, []⟩
    ⟨"k1", 3, 1, 0, "important"⟩ 0 rfl rfl rfl (by decide) rfl (by decide)).1
    (by decide) (by decide)
  have h2 := (C5_retry_backoff ⟨true, fun _ => false, fun _ => true⟩ ⟨0, []⟩
    ⟨"k1", 3, 1, 0, "important"⟩ 0 rfl rfl rfl (by decide) rfl (by decide)).2
    (fun i => rfl)
  refine ⟨h1.1, h1.2.1, h1.2.2.1, ?_, h2.1, h2.2.2.1⟩
  rw [h1.2.2.2.2]
  simp [List.range_succ]
  norm_num

/-- C2 at its failing input: the claim (and the code's own comments,
"CRITICAL jobs: bypass all backpressure, always attempt to start" and
"CRITICAL jobs continue despite Redis errors") say a critical job's
handler runs even when the Coordinator is unreachable; in the code the
`SET running` raises first, the outer `except` swallows it and the
handler is never invoked.  With the store reachable, the saturated
counter is indeed bypassed: the handler runs and the counter is
untouched. -/
theorem C2_critical_bypass_at_failing_input :
    (run_job ⟨false, fun _ => true, fun _ => true⟩ ⟨0, []⟩
        ⟨"jc", 3, 1, 0, "critical"⟩).handlerCalls = 0 ∧
    (run_job ⟨false, fun _ => true, fun _ => true⟩ ⟨0, []⟩
        ⟨"jc", 3, 1, 0, "critical"⟩).outcome = Outcome.redisErrorLogged ∧
    (run_job ⟨false, fun _ => true, fun _ => true⟩ ⟨0, []⟩
        ⟨"jc", 3, 1, 0, "critical"⟩).store.get (_make_status_key ("jc")) = none ∧
    (run_job ⟨true, fun _ => true, fun _ => true⟩
        ⟨0, [(GLOBAL_JOB_COUNTER_KEY, ⟨RVal.int 20, none⟩)]⟩
        ⟨"jc", 3, 1, 0, "critical"⟩).handlerCalls = 1 ∧
    (run_job ⟨true, fun _ => true, fun _ => true⟩
        ⟨0, [(GLOBAL_JOB_COUNTER_KEY, ⟨RVal.int 20, none⟩)]⟩
        ⟨"jc", 3, 1, 0, "critical"⟩).outcome = Outcome.succeeded ∧
    (run_job ⟨true, fun _ => true, fun _ => true⟩
        ⟨0, [(GLOBAL_JOB_COUNTER_KEY, ⟨RVal.int 20, none⟩)]⟩
        ⟨"jc", 3, 1, 0, "critical"⟩).store.lookup GLOBAL_JOB_COUNTER_KEY =
      some ⟨RVal.int 20, none⟩ := by
  decide

theorem Store.incrBy_dead (s : Store) (k : String) (d : Int)
    (h : s.liveEntry k = none) :
    s.incrBy k d = some (s.setEntry k ⟨RVal.int d, none⟩, d) := by
  unfold Store.liveEntry at h
  unfold Store.incrBy
  cases hl : s.lookup k with
  | none => rfl
  | some e =>
    rw [hl] at h
    by_cases hx : e.live s.now = true
    · simp [hx] at h
    · have hdead : e.live s.now = false := by simpa using hx
      simp [hdead]

theorem RedisRateLimiter.record_failure_fresh (rl : RedisRateLimiter) (s : Store)
    (key : String) (h : s.liveEntry ("ratelimit:" ++ key) = none) :
    ∃ s', rl.record_failure true s key = Except.ok s' ∧
      s'.lookup ("ratelimit:" ++ key) =
        some ⟨RVal.int 1, some (s.now + rl.window_seconds)⟩ ∧
      s'.now = s.now ∧
      (∀ k', k' ≠ "ratelimit:" ++ key → s'.lookup k' = s.lookup k') := by
  have hincr := Store.incrBy_dead s ("ratelimit:" ++ key) 1 h
  refine ⟨(s.setEntry ("ratelimit:" ++ key) ⟨RVal.int 1, none⟩).setEntry
      ("ratelimit:" ++ key) ⟨RVal.int 1, some (s.now + rl.window_seconds)⟩,
    ?_, by simp, rfl, ?_⟩
  · unfold RedisRateLimiter.record_failure increment_counter Store.incr
    rw [hincr]
    simp [Store.expireCmd, Entry.live]
  · intro k' hk'
    rw [Store.lookup_setEntry_ne _ _ _ _ hk', Store.lookup_setEntry_ne _ _ _ _ hk']

theorem RedisRateLimiter.record_failure_live (rl : RedisRateLimiter) (s : Store)
    (key : String) (n : Int) (T : Nat)
    (h : s.lookup ("ratelimit:" ++ key) = some ⟨RVal.int n, some T⟩)
    (hT : s.now < T) :
    ∃ s', rl.record_failure true s key = Except.ok s' ∧
      s'.lookup ("ratelimit:" ++ key) = some ⟨RVal.int (n + 1), some T⟩ ∧
      s'.now = s.now ∧
      (∀ k', k' ≠ "ratelimit:" ++ key → s'.lookup k' = s.lookup k') := by
  unfold RedisRateLimiter.record_failure increment_counter Store.incr Store.incrBy
  have hlive : Entry.live ⟨RVal.int n, some T⟩ s.now = true := by
    simp [Entry.live, hT]
  refine ⟨s.setEntry ("ratelimit:" ++ key) ⟨RVal.int (n + 1), some T⟩,
    ?_, by simp, rfl, ?_⟩
  · simp [h, hlive, RVal.asInt?, Store.expireCmd, Entry.live, hT]
  · intro k' hk'
    rw [Store.lookup_setEntry_ne _ _ _ _ hk']

/-- C8: with the limiter configured at `max_attempts = 5` over a 60s
window (the module's `auth_rate_limiter`), five `record_failure` calls on
a fresh key leave the counter at 5 with the TTL installed only by the
creating increment (deadline `now + 60` throughout), `is_limited` then
reports true for the rest of the window and false once the window has
lapsed, with no explicit reset; and the login key derivation includes the
client IP, so the same identity from a different IP maps to a different
key, whose counter the five failures leave untouched. -/
theorem C8_rate_limiter_window (s : Store) (key : String)
    (hfresh : s.liveEntry ("ratelimit:" ++ key) = none) :
    ∃ s1 s2 s3 s4 s5,
      auth_rate_limiter.record_failure true s key = Except.ok s1 ∧
      auth_rate_limiter.record_failure true s1 key = Except.ok s2 ∧
      auth_rate_limiter.record_failure true s2 key = Except.ok s3 ∧
      auth_rate_limiter.record_failure true s3 key = Except.ok s4 ∧
      auth_rate_limiter.record_failure true s4 key = Except.ok s5 ∧
      s1.lookup ("ratelimit:" ++ key) = some ⟨RVal.int 1, some (s.now + 60)⟩ ∧
      s5.lookup ("ratelimit:" ++ key) = some ⟨RVal.int 5, some (s.now + 60)⟩ ∧
      auth_rate_limiter.is_limited true s5 key = Except.ok true ∧
      (∀ d, d < 60 → auth_rate_limiter.is_limited true (s5.advance d) key =
        Except.ok true) ∧
      (∀ d, 60 ≤ d → auth_rate_limiter.is_limited true (s5.advance d) key =
        Except.ok false) ∧
      (∀ key2, key2 ≠ key →
        s5.lookup ("ratelimit:" ++ key2) = s.lookup ("ratelimit:" ++ key2)) ∧
      (∀ (hsh : String → String) (ident ip1 ip2 : String) (k1 k2 : String),
        ip1 ≠ ip2 → ip1 ≠ "" → ip2 ≠ "" →
        _make_key hsh ("login") ident (some ip1) = Except.ok k1 →
        _make_key hsh ("login") ident (some ip2) = Except.ok k2 →
        k1 ≠ k2) := by
  have hwin : auth_rate_limiter.window_seconds = 60 := rfl
  obtain ⟨s1, hr1, hl1, hn1, hf1⟩ :=
    RedisRateLimiter.record_failure_fresh auth_rate_limiter s key hfresh
  rw [hwin] at hl1
  have hT1 : s1.now < s.now + 60 := by omega
  obtain ⟨s2, hr2, hl2, hn2, hf2⟩ :=
    RedisRateLimiter.record_failure_live auth_rate_limiter s1 key 1 (s.now + 60) hl1 hT1
  have hT2 : s2.now < s.now + 60 := by omega
  obtain ⟨s3, hr3, hl3, hn3, hf3⟩ :=
    RedisRateLimiter.record_failure_live auth_rate_limiter s2 key 2 (s.now + 60) hl2 hT2
  have hT3 : s3.now < s.now + 60 := by omega
  obtain ⟨s4, hr4, hl4, hn4, hf4⟩ :=
    RedisRateLimiter.record_failure_live auth_rate_limiter s3 key 3 (s.now + 60) hl3 hT3
  have hT4 : s4.now < s.now + 60 := by omega
  obtain ⟨s5, hr5, hl5, hn5, hf5⟩ :=
    RedisRateLimiter.record_failure_live auth_rate_limiter s4 key 4 (s.now + 60) hl4 hT4
  have hn5' : s5.now = s.now := by omega
  have hl5' : s5.lookup ("ratelimit:" ++ key) =
      some ⟨RVal.int (4 + 1), some (s.now + 60)⟩ := hl5
  refine ⟨s1, s2, s3, s4, s5, hr1, hr2, hr3, hr4, hr5, hl1, by exact_mod_cast hl5', ?_, ?_, ?_, ?_, ?_⟩
  · unfold RedisRateLimiter.is_limited
    simp only [if_true]
    unfold get_counter Store.liveEntry
    rw [hl5']
    have hlv : Entry.live ⟨RVal.int (4 + 1), some (s.now + 60)⟩ s5.now = true := by
      simp [Entry.live]
      omega
    simp only [hlv]
    simp [auth_rate_limiter, AUTH_RATE_LIMIT_MAX_ATTEMPTS]
  · intro d hd
    unfold RedisRateLimiter.is_limited
    simp only [if_true]
    unfold get_counter Store.liveEntry
    rw [Store.lookup_advance, hl5']
    have hlv : Entry.live ⟨RVal.int (4 + 1), some (s.now + 60)⟩ (s5.advance d).now = true := by
      simp [Entry.live, Store.advance]
      omega
    simp only [hlv]
    simp [auth_rate_limiter, AUTH_RATE_LIMIT_MAX_ATTEMPTS]
  · intro d hd
    unfold RedisRateLimiter.is_limited
    simp only [if_true]
    unfold get_counter Store.liveEntry
    rw [Store.lookup_advance, hl5']
    have hlv : Entry.live ⟨RVal.int (4 + 1), some (s.now + 60)⟩ (s5.advance d).now = false := by
      simp [Entry.live, Store.advance]
      omega
    simp only [hlv]
    simp [auth_rate_limiter, AUTH_RATE_LIMIT_MAX_ATTEMPTS]
  · intro key2 hk2
    have hne : "ratelimit:" ++ key2 ≠ "ratelimit:" ++ key := by
      intro hco
      exact hk2 (String.append_left_inj _ _ _ hco)
    rw [hf5 _ hne, hf4 _ hne, hf3 _ hne, hf2 _ hne, hf1 _ hne]
  · intro hsh ident ip1 ip2 k1 k2 hip hip1 hip2 hk1 hk2
    unfold _make_key at hk1 hk2
    by_cases hid : ident = ""
    · rw [if_pos hid] at hk1
      exact absurd hk1 (by simp)
    · rw [if_neg hid] at hk1 hk2
      simp [hip1, hip2] at hk1 hk2
      rw [← hk1, ← hk2]
      intro hco
      have h1 := String.append_right_inj _ _ _ hco
      have h2 := String.append_right_inj _ _ _ h1
      have h3 := String.append_left_inj _ _ _ h2
      exact hip h3

/-- Witness for C8: the five-failure scenario on key `K` from an empty
store at time 0. -/
theorem C8_rate_limiter_window_witness :
    ∃ s1 s2 s3 s4 s5,
      auth_rate_limiter.record_failure true ⟨0, []⟩ ("K") = Except.ok s1 ∧
      auth_rate_limiter.record_failure true s1 ("K") = Except.ok s2 ∧
      auth_rate_limiter.record_failure true s2 ("K") = Except.ok s3 ∧
      auth_rate_limiter.record_failure true s3 ("K") = Except.ok s4 ∧
      auth_rate_limiter.record_failure true s4 ("K") = Except.ok s5 ∧
      s1.lookup ("ratelimit:" ++ "K") = some ⟨RVal.int 1, some (0 + 60)⟩ ∧
      s5.lookup ("ratelimit:" ++ "K") = some ⟨RVal.int 5, some (0 + 60)⟩ ∧
      auth_rate_limiter.is_limited true s5 ("K") = Except.ok true ∧
      (∀ d, d < 60 → auth_rate_limiter.is_limited true (s5.advance d) ("K") =
        Except.ok true) ∧
      (∀ d, 60 ≤ d → auth_rate_limiter.is_limited true (s5.advance d) ("K") =
        Except.ok false) ∧
      (∀ key2, key2 ≠ "K" →
        s5.lookup ("ratelimit:" ++ key2) = Store.lookup ⟨0, []⟩ ("ratelimit:" ++ key2)) ∧
      (∀ (hsh : String → String) (ident ip1 ip2 : String) (k1 k2 : String),
        ip1 ≠ ip2 → ip1 ≠ "" → ip2 ≠ "" →
        _make_key hsh ("login") ident (some ip1) = Except.ok k1 →
        _make_key hsh ("login") ident (some ip2) = Except.ok k2 →
        k1 ≠ k2) :=
  C8_rate_limiter_window ⟨0, []⟩ ("K") (by decide)

/-- Counterexample for C9: a Coordinator failure inside
`check_login_rate_limit` (the rate limiter installs no handler for store
errors) reaches the caller as an exception, and that exception is not the
rate-limit-exceeded signal — the claim says the rate-limit signal is the
only exception propagated. -/
theorem C9_propagation_counterexample :
    check_login_rate_limit (fun x => x) false ⟨0, []⟩ ("user@example.com")
        (some ("1.2.3.1")) = Except.error AuthSignal.redisError ∧
    AuthSignal.redisError ≠ AuthSignal.rateLimitExceeded := by
  exact ⟨rfl, by decide⟩

/-- C9 (amended): job enqueue, job status read and admission control
catch Coordinator store errors at the operation boundary and turn them
into policy decisions (logged skip, `None`, drop or reject — a normal
return, never an exception); the rate-limit operations do not: a store
error inside `is_limited`, `record_failure` or `reset` propagates to the
caller as an exception, alongside the intentional rate-limit-exceeded
signal raised when the counter has reached the limit. -/
theorem C9_error_boundaries (jobs : List (String × Job)) (s : Store) (j : Job)
    (env : RunEnv) (key : String) (hdown : env.storeUp = false) :
    enqueue true false jobs s j = ⟨j, jobs, s, EnqOutcome.redisError⟩ ∧
    status_for true false s key = none ∧
    (j.criticality = "best_effort" →
      (run_job env s j).outcome = Outcome.droppedRedis) ∧
    (j.criticality = "important" →
      (run_job env s j).outcome = Outcome.rejectedRedis) ∧
    auth_rate_limiter.is_limited false s key = Except.error AuthSignal.redisError ∧
    auth_rate_limiter.record_failure false s key =
      Except.error AuthSignal.redisError ∧
    auth_rate_limiter.reset false s key = Except.error AuthSignal.redisError ∧
    (∀ (hsh : String → String) (email : String) (ip : Option String)
        (k : String) (up : Bool),
      _make_key hsh ("login") (pyLower email) ip = Except.ok k →
      auth_rate_limiter.is_limited up s k = Except.ok true →
      check_login_rate_limit hsh up s email ip =
        Except.error AuthSignal.rateLimitExceeded) := by
  have hrun : ∀ hbe : j.criticality = "best_effort" ∨ j.criticality = "important",
      (run_job env s j).outcome =
        (if j.criticality = "best_effort" then Outcome.droppedRedis
         else Outcome.rejectedRedis) := by
    intro hbe
    have hncrit : j.criticality ≠ "critical" := by
      rcases hbe with hbe | hbe <;> rw [hbe] <;> decide
    have hbody : runBody env s j =
        (if j.criticality = "best_effort" then
          ⟨s, false, 0, 0, [], Outcome.droppedRedis⟩
         else ⟨s, false, 0, 0, [], Outcome.rejectedRedis⟩) := by
      unfold runBody
      rw [if_pos hncrit, hdown]
      simp
    unfold run_job
    rw [hbody]
    by_cases hb : j.criticality = "best_effort" <;> simp [hb]
  refine ⟨rfl, rfl, ?_, ?_, rfl, rfl, rfl, ?_⟩
  · intro hbe
    rw [hrun (Or.inl hbe), if_pos hbe]
  · intro himp
    have hnb : ¬ j.criticality = "best_effort" := by rw [himp]; decide
    rw [hrun (Or.inr himp), if_neg hnb]
  · intro hsh email ip k up hmk hlim
    unfold check_login_rate_limit
    rw [hmk]
    simp only [hlim]

set_option maxRecDepth 4000 in
/-- Witness for C9: concrete instances of each half — a dropped
`best_effort` admission and a `None` status read under a downed store, a
propagated store error from the rate limiter, and the rate-limit signal
itself from a saturated counter. -/
theorem C9_error_boundaries_witness :
    (run_job ⟨false, fun _ => true, fun _ => true⟩ ⟨0, []⟩
        ⟨"k1", 3, 1, 0, "best_effort"⟩).outcome = Outcome.droppedRedis ∧
    status_for true false ⟨0, []⟩ ("k1") = none ∧
    auth_rate_limiter.is_limited false ⟨0, []⟩ ("K") =
      Except.error AuthSignal.redisError ∧
    check_login_rate_limit (fun x => x) true
        ⟨0, [("ratelimit:login:1.2.3.1:user@example.com",
          ⟨RVal.int 5, some 60⟩)]⟩ ("user@example.com") (some ("1.2.3.1")) =
      Except.error AuthSignal.rateLimitExceeded := by
  have h := C9_error_boundaries [] ⟨0, [("ratelimit:login:1.2.3.1:user@example.com",
    ⟨RVal.int 5, some 60⟩)]⟩ ⟨"k1", 3, 1, 0, "best_effort"⟩
    ⟨false, fun _ => true, fun _ => true⟩ ("K") rfl
  have h2 := C9_error_boundaries [] (⟨0, []⟩ : Store) ⟨"k1", 3, 1, 0, "best_effort"⟩
    ⟨false, fun _ => true, fun _ => true⟩ ("K") rfl
  refine ⟨h2.2.2.1 rfl, h2.2.1, h2.2.2.2.2.1, ?_⟩
  exact h.2.2.2.2.2.2.2 (fun x => x) ("user@example.com") (some ("1.2.3.1"))
    ("login:1.2.3.1:user@example.com") true rfl rfl

end Kitsu

